import Mathlib

/-!
Verification of the candidate–job matching and ranking core of the
Resume-Analyzer repository (src/candidate_matcher.py and the domain
classifier of src/nlp_analyzer.py), as a shallow embedding in Lean 4.

Python floats are modelled by exact rationals (ℚ), Python strings by
`String`, Python dicts with optional keys by structures with `Option`
fields (`dict.get(k, d)` becomes `Option.getD`), and Python's substring
test `a in b` by the decidable infix relation on character lists.
-/

namespace ResumeAnalyzer

/-- Python's `str.lower()` (ASCII case mapping), character by character. -/
def lowerStr (s : String) : String := ⟨s.data.map Char.toLower⟩

/-- Python's `str.strip()`: remove leading and trailing whitespace. -/
def trimStr (s : String) : String :=
  ⟨((s.data.dropWhile Char.isWhitespace).reverse.dropWhile Char.isWhitespace).reverse⟩

/-- Substring test: Python's `a in b` on strings. -/
def substrB (a b : String) : Bool := decide (a.toList <:+: b.toList)

/-- Candidate record as consumed by the matcher: a dict whose keys
`domain`, `skills`, `experience_years` may be absent. -/
structure Candidate where
  domain : Option String
  skills : Option (List String)
  experience_years : Option Int
deriving DecidableEq

/-- Job-requirement record: a dict whose keys `domain`, `required_skills`,
`required_experience`, `job_description` may be absent. -/
structure JobRequirement where
  domain : Option String
  required_skills : Option (List String)
  required_experience : Option Int
  job_description : Option String
deriving DecidableEq

/-- `domain_relationships` dict of `calculate_domain_match`
(candidate_matcher.py lines 82-90); a missing key yields `[]`. -/
def domain_relationships (d : String) : List String :=
  if d = "ml/ai" then ["data engineering", "backend"]
  else if d = "data engineering" then ["ml/ai", "backend"]
  else if d = "frontend" then ["full stack"]
  else if d = "backend" then ["full stack", "devops", "ml/ai"]
  else if d = "devops" then ["backend", "cloud"]
  else if d = "full stack" then ["frontend", "backend"]
  else if d = "mobile" then ["frontend"]
  else []

/-- `calculate_domain_match` (candidate_matcher.py lines 60-108). -/
def calculate_domain_match (candidate_domain required_domain : String) : ℚ :=
  if candidate_domain = "" ∨ required_domain = "" then 1/2
  else
    let cd := lowerStr candidate_domain
    let rd := lowerStr required_domain
    if cd = rd then 1
    else if cd ∈ domain_relationships rd then 7/10
    else if rd ∈ domain_relationships cd then 7/10
    else if substrB "full stack" cd ∧ rd ∈ (["frontend", "backend"] : List String) then 8/10
    else if substrB "full stack" rd ∧ cd ∈ (["frontend", "backend"] : List String) then 8/10
    else 2/10

/-- `calculate_skills_match` (candidate_matcher.py lines 110-156).
The two inner for-loops with `break` only test existence of a matching
candidate skill, so they are rendered with `List.any`. -/
def calculate_skills_match (candidate_skills required_skills : List String) : ℚ :=
  if required_skills.isEmpty then 1/2
  else if candidate_skills.isEmpty then 0
  else
    let candidate_skills_lower := candidate_skills.map (fun s => trimStr (lowerStr s))
    let required_skills_lower := required_skills.map (fun s => trimStr (lowerStr s))
    let exact_matches := required_skills_lower.countP
      (fun r => candidate_skills_lower.any (fun c => r == c))
    let partial_matches := required_skills_lower.countP
      (fun r => !(candidate_skills_lower.any (fun c => r == c)) &&
        candidate_skills_lower.any
          (fun c => (substrB r c || substrB c r) && decide (r.length > 2)))
    let total_matches : ℚ := (exact_matches : ℚ) + (partial_matches : ℚ) * (1/2)
    let match_score := total_matches / (required_skills_lower.length : ℚ)
    min match_score 1

/-- `calculate_experience_match` (candidate_matcher.py lines 158-190). -/
def calculate_experience_match (candidate_experience required_experience : Int) : ℚ :=
  if required_experience ≤ 0 then 1
  else if candidate_experience ≤ 0 then 1/10
  else
    let ratio : ℚ := (candidate_experience : ℚ) / (required_experience : ℚ)
    if ratio ≥ 1 then 1
    else if ratio ≥ 8/10 then 9/10
    else if ratio ≥ 6/10 then 7/10
    else if ratio ≥ 4/10 then 1/2
    else if ratio ≥ 2/10 then 3/10
    else 1/10

/-- `calculate_text_similarity` (candidate_matcher.py lines 192-216).
The Python truthiness test `if keyword` excludes the empty string. -/
def calculate_text_similarity (candidate_keywords : List String) (job_description : String) : ℚ :=
  if job_description = "" ∨ candidate_keywords.isEmpty then 0
  else
    let job_description_lower := lowerStr job_description
    let match_count := candidate_keywords.countP
      (fun k => !(k == "") && substrB (lowerStr k) job_description_lower)
    if candidate_keywords.length = 0 then 0
    else (match_count : ℚ) / (candidate_keywords.length : ℚ)

/-- Domain field score used inside `calculate_match_score`
(candidate_matcher.py lines 28-31): a missing domain defaults to "General". -/
def domain_component (c : Candidate) (j : JobRequirement) : ℚ :=
  calculate_domain_match (c.domain.getD "General") (j.domain.getD "General")

/-- Skills field score used inside `calculate_match_score` (lines 35-38). -/
def skills_component (c : Candidate) (j : JobRequirement) : ℚ :=
  calculate_skills_match (c.skills.getD []) (j.required_skills.getD [])

/-- Experience field score used inside `calculate_match_score` (lines 42-45). -/
def experience_component (c : Candidate) (j : JobRequirement) : ℚ :=
  calculate_experience_match (c.experience_years.getD 0) (j.required_experience.getD 0)

/-- Text-similarity field score used inside `calculate_match_score`
(lines 49-52): the keyword list is the candidate's skills with the
candidate's domain appended, the domain defaulting to the empty string. -/
def text_component (c : Candidate) (j : JobRequirement) : ℚ :=
  calculate_text_similarity ((c.skills.getD []) ++ [c.domain.getD ""])
    (j.job_description.getD "")

/-- `calculate_match_score` (candidate_matcher.py lines 8-58): weighted sum
of the four field scores (weights 0.3, 0.4, 0.2, 0.1), clamped to [0,1]. -/
def calculate_match_score (c : Candidate) (j : JobRequirement) : ℚ :=
  let total_score :=
    domain_component c j * (3/10) + skills_component c j * (4/10) +
    experience_component c j * (2/10) + text_component c j * (1/10)
  min (max total_score 0) 1

/-- The per-required-skill containment test of `analyze_match_details`
(candidate_matcher.py line 301): case-insensitive substring in either
direction. -/
def skillOverlap (req_skill cand_skill : String) : Bool :=
  substrB (lowerStr req_skill) (lowerStr cand_skill) ||
  substrB (lowerStr cand_skill) (lowerStr req_skill)

/-- The `matched_skills` list built by the loop of `analyze_match_details`
(lines 295-306): required skills for which some candidate skill passes
`skillOverlap`. -/
def matched_skills_of (candidate_skills required_skills : List String) : List String :=
  required_skills.filter (fun r => candidate_skills.any (fun c => skillOverlap r c))

/-- The `missing_skills` list of the same loop: required skills for which
no candidate skill passes `skillOverlap`. -/
def missing_skills_of (candidate_skills required_skills : List String) : List String :=
  required_skills.filter (fun r => !candidate_skills.any (fun c => skillOverlap r c))

/-- `get_match_level` (candidate_matcher.py lines 357-376). -/
def get_match_level (score : ℚ) : String :=
  if score ≥ 9/10 then "Excellent"
  else if score ≥ 7/10 then "Good"
  else if score ≥ 1/2 then "Fair"
  else if score ≥ 3/10 then "Poor"
  else "Very Poor"

/-- The `domain_analysis` sub-dict of `analyze_match_details` (lines 284-289). -/
structure DomainAnalysis where
  score : ℚ
  candidate_domain : String
  required_domain : String
  match_level : String
deriving DecidableEq

/-- The `skills_analysis` sub-dict of `analyze_match_details` (lines 309-315). -/
structure SkillsAnalysis where
  score : ℚ
  matched_skills : List String
  missing_skills : List String
  additional_skills : List String
  match_level : String
deriving DecidableEq

/-- The `experience_analysis` sub-dict of `analyze_match_details` (lines 322-327). -/
structure ExperienceAnalysis where
  score : ℚ
  candidate_experience : Int
  required_experience : Int
  match_level : String
deriving DecidableEq

/-- The dict returned by `analyze_match_details` (lines 269-277). -/
structure MatchAnalysis where
  overall_score : ℚ
  domain_analysis : DomainAnalysis
  skills_analysis : SkillsAnalysis
  experience_analysis : ExperienceAnalysis
  strengths : List String
  gaps : List String
  recommendations : List String
deriving DecidableEq

/-- `analyze_match_details` (candidate_matcher.py lines 258-355).
The `strengths`, `gaps` and `recommendations` lists are appended to in
source order (domain, then skills, then experience). -/
def analyze_match_details (candidate : Candidate) (job_requirements : JobRequirement) : MatchAnalysis :=
  let candidate_skills := candidate.skills.getD []
  let required_skills := job_requirements.required_skills.getD []
  let cand_domain := candidate.domain.getD "General"
  let req_domain := job_requirements.domain.getD "General"
  let cand_exp := candidate.experience_years.getD 0
  let req_exp := job_requirements.required_experience.getD 0
  let domain_score := calculate_domain_match cand_domain req_domain
  let matched_skills := matched_skills_of candidate_skills required_skills
  let missing_skills := missing_skills_of candidate_skills required_skills
  let skills_score := calculate_skills_match candidate_skills required_skills
  let exp_score := calculate_experience_match cand_exp req_exp
  { overall_score := calculate_match_score candidate job_requirements
    domain_analysis :=
      { score := domain_score
        candidate_domain := cand_domain
        required_domain := req_domain
        match_level := get_match_level domain_score }
    skills_analysis :=
      { score := skills_score
        matched_skills := matched_skills
        missing_skills := missing_skills
        additional_skills := candidate_skills.filter (fun s => !(matched_skills.contains s))
        match_level := get_match_level skills_score }
    experience_analysis :=
      { score := exp_score
        candidate_experience := cand_exp
        required_experience := req_exp
        match_level := get_match_level exp_score }
    strengths :=
      (if domain_score ≥ 7/10 then ["Strong domain match (" ++ cand_domain ++ ")"] else []) ++
      (if skills_score ≥ 7/10 then
        ["Good skills match (" ++ toString matched_skills.length ++ "/" ++
          toString required_skills.length ++ " required skills)"] else []) ++
      (if exp_score ≥ 8/10 then
        ["Sufficient experience (" ++ toString cand_exp ++ " years)"] else [])
    gaps :=
      (if domain_score ≥ 7/10 then [] else
        ["Domain mismatch (has " ++ cand_domain ++ ", needs " ++ req_domain ++ ")"]) ++
      (if skills_score ≥ 7/10 then [] else
        ["Missing key skills: " ++ String.intercalate ", " (missing_skills.take 3)]) ++
      (if exp_score ≥ 8/10 then [] else
        ["Experience gap (has " ++ toString cand_exp ++ ", needs " ++
          toString req_exp ++ " years)"])
    recommendations :=
      (if !missing_skills.isEmpty then
        ["Consider training in: " ++ String.intercalate ", " (missing_skills.take 3)] else []) ++
      (if exp_score < 6/10 then
        ["Consider for junior/training role or mentorship program"] else []) ++
      (if domain_score < 1/2 ∧ skills_score > 6/10 then
        ["Skills transferable, domain transition possible with training"] else []) }

/-- An element of the list passed to `rank_candidates`: a dict that may
carry a `match_score` key; all its other keys are opaque payload. -/
structure ScoredCandidate where
  match_score : Option ℚ
  payload : Nat
deriving DecidableEq

/-- The sort key of `rank_candidates` (line 230): `x.get('match_score', 0)`. -/
def entry_score (x : ScoredCandidate) : ℚ := x.match_score.getD 0

/-- `rank_candidates` (candidate_matcher.py lines 218-232): Python's
`sorted(..., key=..., reverse=True)`, i.e. a stable sort descending on the
key, rendered with the stable `List.mergeSort`. -/
def rank_candidates (candidates_with_scores : List ScoredCandidate) : List ScoredCandidate :=
  candidates_with_scores.mergeSort (fun a b => decide (entry_score b ≤ entry_score a))

/-- The `domain_keywords` dict of `classify_domain` (nlp_analyzer.py
lines 62-95), in Python insertion order. -/
def domain_keywords : List (String × List String) :=
  [("ML/AI",
    ["machine learning", "deep learning", "tensorflow", "pytorch", "keras",
     "scikit-learn", "neural networks", "nlp", "computer vision", "ai",
     "transformers", "bert", "gpt", "opencv", "pandas", "numpy", "ml"]),
   ("Data Engineering",
    ["hadoop", "spark", "kafka", "airflow", "etl", "data pipeline",
     "snowflake", "databricks", "big data", "data warehouse", "data lake",
     "apache spark", "hive", "pig", "scala", "sql"]),
   ("Frontend",
    ["react", "angular", "vue", "javascript", "typescript", "html", "css",
     "sass", "less", "webpack", "babel", "npm", "yarn", "jquery", "bootstrap",
     "tailwind", "next.js", "nuxt.js", "svelte"]),
   ("Backend",
    ["node.js", "express", "django", "flask", "fastapi", "spring", "spring boot",
     "laravel", "rails", "asp.net", "php", "java", "python", "c#", "go", "rust"]),
   ("DevOps",
    ["docker", "kubernetes", "jenkins", "gitlab ci", "github actions",
     "terraform", "ansible", "chef", "puppet", "aws", "azure", "gcp",
     "linux", "bash", "shell scripting", "monitoring"]),
   ("Mobile",
    ["ios", "android", "swift", "kotlin", "react native", "flutter",
     "xamarin", "ionic", "cordova", "mobile development"]),
   ("Full Stack",
    ["full stack", "fullstack", "mean", "mern", "lamp", "django + react",
     "node + react"])]

/-- The per-domain score of `classify_domain` (nlp_analyzer.py lines
101-108): the number of (keyword, skill) pairs with the keyword a substring
of the (lowercased) skill. -/
def domain_score_of (keywords skills_lower : List String) : Nat :=
  (keywords.map (fun kw => skills_lower.countP (fun s => substrB kw s))).sum

/-- `classify_domain` (nlp_analyzer.py lines 48-121): highest-scoring
domain in dict order, or "General" when the skill list is empty or the
maximum score is 0. -/
def classify_domain (skills : List String) : String :=
  if skills.isEmpty then "General"
  else
    let skills_lower := skills.map lowerStr
    let domain_scores := domain_keywords.map (fun p => (p.1, domain_score_of p.2 skills_lower))
    let max_score := (domain_scores.map Prod.snd).foldl max 0
    if max_score = 0 then "General"
    else
      match domain_scores.find? (fun p => p.2 = max_score) with
      | some p => p.1
      | none => "General"

/-! ### Theorems -/

/-- Claim C1: for every candidate and job requirement, `calculate_match_score`
equals 0.3×domain + 0.4×skills + 0.2×experience + 0.1×text (the four field
scores computed by the four field matchers on the corresponding fields),
clamped to [0,1]; in particular the result always lies in [0,1]. -/
theorem calculate_match_score_spec (c : Candidate) (j : JobRequirement) :
    calculate_match_score c j =
      min (max ((3/10) * domain_component c j + (4/10) * skills_component c j +
        (2/10) * experience_component c j + (1/10) * text_component c j) 0) 1 ∧
    0 ≤ calculate_match_score c j ∧ calculate_match_score c j ≤ 1 := by
  refine ⟨?_, ?_, ?_⟩
  · unfold calculate_match_score
    ring_nf
  · unfold calculate_match_score
    exact le_min (le_max_right _ 0) zero_le_one
  · unfold calculate_match_score
    exact min_le_right _ 1

/-- Claim C5: the `overall_score` field of `analyze_match_details c j`
equals `calculate_match_score c j`. -/
theorem analyze_overall_score_spec (c : Candidate) (j : JobRequirement) :
    (analyze_match_details c j).overall_score = calculate_match_score c j := rfl

/-- Concrete candidate with no domain key, used as a counterexample. -/
def no_domain_candidate : Candidate :=
  { domain := none, skills := some ["Python3"], experience_years := none }

/-- Concrete job requirement with no domain key, used as a counterexample. -/
def no_domain_job : JobRequirement :=
  { domain := none, required_skills := some ["Python"],
    required_experience := none, job_description := none }

/-- Counterexample to claim C3: for a candidate record with no domain value
and a job requirement with no domain value, the domain field score used
inside `calculate_match_score` is 1, not the neutral 0.5: the missing key
defaults to "General" on both sides, which is an exact match. -/
theorem missing_domain_cex :
    no_domain_candidate.domain = none ∧ no_domain_job.domain = none ∧
    domain_component no_domain_candidate no_domain_job = 1 ∧ (1 : ℚ) ≠ 1/2 := by
  refine ⟨rfl, rfl, ?_, by norm_num⟩
  show calculate_domain_match "General" "General" = 1
  unfold calculate_domain_match
  rw [if_neg (by decide), if_pos (by decide)]

/-- Claim C3 (amended): a candidate record with no domain value gets the
domain field score `calculate_domain_match "General" (job domain, defaulting
to "General")` inside `calculate_match_score` — in particular 1.0 when the
job's domain is also missing, not the neutral 0.5; the 0.5 neutral applies
when a present domain string is empty. The other defaults are as claimed:
missing skills → empty list, missing experience → 0. -/
theorem missing_domain_defaults_spec (c : Candidate) (j : JobRequirement)
    (hc : c.domain = none) :
    domain_component c j = calculate_domain_match "General" (j.domain.getD "General") ∧
    (j.domain = none → domain_component c j = 1) ∧
    (∀ rd : String, calculate_domain_match "" rd = 1/2) ∧
    (c.skills = none →
      skills_component c j = calculate_skills_match [] (j.required_skills.getD [])) ∧
    (c.experience_years = none →
      experience_component c j = calculate_experience_match 0 (j.required_experience.getD 0)) := by
  refine ⟨?_, ?_, ?_, ?_, ?_⟩
  · unfold domain_component
    rw [hc]
    rfl
  · intro hj
    unfold domain_component
    rw [hc, hj]
    show calculate_domain_match "General" "General" = 1
    unfold calculate_domain_match
    rw [if_neg (by decide), if_pos (by decide)]
  · intro rd
    unfold calculate_domain_match
    rw [if_pos (Or.inl rfl)]
  · intro hs
    unfold skills_component
    rw [hs]
    rfl
  · intro he
    unfold experience_component
    rw [he]
    rfl

/-- Witness for the amended claim C3 at a concrete input. -/
theorem missing_domain_defaults_spec_witness :
    domain_component no_domain_candidate no_domain_job = 1 :=
  (missing_domain_defaults_spec no_domain_candidate no_domain_job rfl).2.1 rfl

/-- Counterexample to claim C4: the pair ("full stack", "frontend")
satisfies all conditions of the claim — both non-empty, not equal,
"full stack" a substring of the lowercased candidate domain, the other
side "frontend" — yet `calculate_domain_match` returns 0.7, not 0.8: the
relation-table check runs first and returns immediately, so the later
full-stack rule cannot override it. -/
theorem full_stack_override_cex :
    ("full stack" : String) ≠ "" ∧ ("frontend" : String) ≠ "" ∧
    lowerStr "full stack" ≠ lowerStr "frontend" ∧
    substrB "full stack" (lowerStr "full stack") = true ∧
    lowerStr "frontend" ∈ (["frontend", "backend"] : List String) ∧
    calculate_domain_match "full stack" "frontend" = 7/10 ∧ (7/10 : ℚ) ≠ 8/10 := by
  refine ⟨by decide, by decide, by decide, by decide, by decide, ?_, by norm_num⟩
  unfold calculate_domain_match
  rw [if_neg (by decide), if_neg (by decide), if_pos (by decide)]

/-- Claim C4 (amended): for non-empty, not case-insensitively equal domain
strings, if lowercased "full stack" is a substring of one side and the other
side lowercased is "frontend" or "backend" (either direction), and
additionally neither lowercased domain occurs in the other's relation-table
list (the relation-table checks run first and return immediately, so they
take precedence instead of being overridden), then `calculate_domain_match`
returns 0.8. -/
theorem full_stack_special_case_spec (cd rd : String)
    (hcd : cd ≠ "") (hrd : rd ≠ "")
    (hne : lowerStr cd ≠ lowerStr rd)
    (hrel1 : lowerStr cd ∉ domain_relationships (lowerStr rd))
    (hrel2 : lowerStr rd ∉ domain_relationships (lowerStr cd))
    (hfs : (substrB "full stack" (lowerStr cd) = true ∧
              lowerStr rd ∈ (["frontend", "backend"] : List String)) ∨
           (substrB "full stack" (lowerStr rd) = true ∧
              lowerStr cd ∈ (["frontend", "backend"] : List String))) :
    calculate_domain_match cd rd = 8/10 := by
  unfold calculate_domain_match
  rw [if_neg (by simp [hcd, hrd]), if_neg hne, if_neg hrel1, if_neg hrel2]
  rcases hfs with h | h
  · rw [if_pos h]
  · rw [if_neg ?_, if_pos h]
    intro hcontra
    rcases List.mem_pair.mp h.2 with h2 | h2 <;>
      rw [h2] at hcontra <;> exact absurd hcontra.1 (by decide)

/-- Witness for the amended claim C4 at a concrete input. -/
theorem full_stack_special_case_spec_witness :
    calculate_domain_match "Full Stack Developer" "Frontend" = 8/10 :=
  full_stack_special_case_spec "Full Stack Developer" "Frontend"
    (by decide) (by decide) (by decide) (by decide) (by decide)
    (Or.inl ⟨by decide, by decide⟩)

/-- The normalization applied to every skill by `calculate_skills_match`:
lowercase and strip. -/
def normalizeSkill (s : String) : String := trimStr (lowerStr s)

/-- Stated from the claim's wording (to be compared with the source
definition): number of required skills, normalized, that some normalized
candidate skill equals exactly. -/
def spec_exact_count (candidate_skills required_skills : List String) : Nat :=
  (required_skills.map normalizeSkill).countP
    (fun r => decide (r ∈ candidate_skills.map normalizeSkill))

/-- Stated from the claim's wording (to be compared with the source
definition): number of required skills, normalized, with no exact match,
whose length exceeds 2, and which some normalized candidate skill contains
or is contained in. -/
def spec_partial_count (candidate_skills required_skills : List String) : Nat :=
  (required_skills.map normalizeSkill).countP
    (fun r => decide (r ∉ candidate_skills.map normalizeSkill ∧ 2 < r.length ∧
      ∃ c ∈ candidate_skills.map normalizeSkill,
        substrB r c = true ∨ substrB c r = true))

/-- Claim C2: `calculate_skills_match` returns 0.5 on an empty
required-skills list, 0.0 when requirements exist but the candidate list is
empty, and otherwise (exact_count + 0.5 × partial_count) / |required|,
capped at 1.0, with exact and partial matches counted per required skill
after lowercasing and trimming. -/
theorem calculate_skills_match_spec (candidate_skills required_skills : List String) :
    (required_skills = [] → calculate_skills_match candidate_skills required_skills = 1/2) ∧
    (required_skills ≠ [] → candidate_skills = [] →
      calculate_skills_match candidate_skills required_skills = 0) ∧
    (required_skills ≠ [] → candidate_skills ≠ [] →
      calculate_skills_match candidate_skills required_skills =
        min (((spec_exact_count candidate_skills required_skills : ℚ) +
          (1/2) * (spec_partial_count candidate_skills required_skills : ℚ)) /
            (required_skills.length : ℚ)) 1) := by
  refine ⟨?_, ?_, ?_⟩
  · intro h
    subst h
    rfl
  · intro hr hc
    subst hc
    unfold calculate_skills_match
    rw [if_neg (by simp [hr]), if_pos (by simp)]
  · intro hr hc
    unfold calculate_skills_match
    rw [if_neg (by simp [hr]), if_neg (by simp [hc])]
    simp only
    have hexact : (required_skills.map (fun s => trimStr (lowerStr s))).countP
        (fun r => (candidate_skills.map (fun s => trimStr (lowerStr s))).any (fun c => r == c)) =
        spec_exact_count candidate_skills required_skills := by
      unfold spec_exact_count normalizeSkill
      refine List.countP_congr (fun r _ => ?_)
      simp only [List.any_eq_true, beq_iff_eq, decide_eq_true_iff]
      exact ⟨fun ⟨x, hx, hrx⟩ => hrx ▸ hx, fun h => ⟨r, h, rfl⟩⟩
    have hpartial : (required_skills.map (fun s => trimStr (lowerStr s))).countP
        (fun r => !((candidate_skills.map (fun s => trimStr (lowerStr s))).any (fun c => r == c)) &&
          (candidate_skills.map (fun s => trimStr (lowerStr s))).any
            (fun c => (substrB r c || substrB c r) && decide (r.length > 2))) =
        spec_partial_count candidate_skills required_skills := by
      unfold spec_partial_count normalizeSkill
      refine List.countP_congr (fun r _ => ?_)
      simp only [Bool.and_eq_true, Bool.not_eq_true', List.any_eq_false, List.any_eq_true,
        decide_eq_true_iff, Bool.or_eq_true, beq_iff_eq, Bool.not_eq_true,
        Nat.lt_iff_add_one_le]
      constructor
      · rintro ⟨h1, c, hc, hsub, hlen⟩
        exact ⟨fun hm => absurd rfl (h1 r hm), hlen, c, hc, hsub⟩
      · rintro ⟨h1, hlen, c, hc, hsub⟩
        exact ⟨fun x hx hrx => h1 (hrx ▸ hx), c, hc, hsub, hlen⟩
    rw [hexact, hpartial, List.length_map]
    ring_nf

/-- Witness for claim C2 at a concrete input: one exact match out of two
required skills gives score 1/2. -/
theorem calculate_skills_match_spec_witness :
    calculate_skills_match ["Python", "SQL"] ["python", "java"] = 1/2 := by
  have h := (calculate_skills_match_spec ["Python", "SQL"] ["python", "java"]).2.2
    (by decide) (by decide)
  rw [h, show spec_exact_count ["Python", "SQL"] ["python", "java"] = 1 from by decide,
    show spec_partial_count ["Python", "SQL"] ["python", "java"] = 0 from by decide]
  norm_num

/-- `skillOverlap` only depends on the lowercased required skill. -/
theorem skillOverlap_congr (r1 r2 cs : String) (h : lowerStr r1 = lowerStr r2) :
    skillOverlap r1 cs = skillOverlap r2 cs := by
  unfold skillOverlap
  rw [h]

/-- Claim C7: in `analyze_match_details`, matched_skills ∪ missing_skills
equals required_skills as case-insensitive sets (sets of lowercased
strings), and their intersection is empty. -/
theorem matched_missing_partition_spec (c : Candidate) (j : JobRequirement) :
    (((analyze_match_details c j).skills_analysis.matched_skills ++
        (analyze_match_details c j).skills_analysis.missing_skills).map lowerStr).toFinset =
      ((j.required_skills.getD []).map lowerStr).toFinset ∧
    ((analyze_match_details c j).skills_analysis.matched_skills.map lowerStr).toFinset ∩
      ((analyze_match_details c j).skills_analysis.missing_skills.map lowerStr).toFinset = ∅ := by
  have hm : (analyze_match_details c j).skills_analysis.matched_skills =
      matched_skills_of (c.skills.getD []) (j.required_skills.getD []) := rfl
  have hmi : (analyze_match_details c j).skills_analysis.missing_skills =
      missing_skills_of (c.skills.getD []) (j.required_skills.getD []) := rfl
  rw [hm, hmi]
  constructor
  · have hperm : List.Perm
        (matched_skills_of (c.skills.getD []) (j.required_skills.getD []) ++
          missing_skills_of (c.skills.getD []) (j.required_skills.getD []))
        (j.required_skills.getD []) := by
      unfold matched_skills_of missing_skills_of
      exact List.filter_append_perm _ _
    exact List.toFinset_eq_of_perm _ _ (hperm.map lowerStr)
  · rw [Finset.eq_empty_iff_forall_not_mem]
    intro s hs
    rcases Finset.mem_inter.mp hs with ⟨h1, h2⟩
    rcases List.mem_map.mp (List.mem_toFinset.mp h1) with ⟨r1, hr1, hs1⟩
    rcases List.mem_map.mp (List.mem_toFinset.mp h2) with ⟨r2, hr2, hs2⟩
    unfold matched_skills_of at hr1
    unfold missing_skills_of at hr2
    have hp1 := (List.mem_filter.mp hr1).2
    have hp2 := (List.mem_filter.mp hr2).2
    have hcong : (fun cs => skillOverlap r1 cs) = (fun cs => skillOverlap r2 cs) :=
      funext (fun cs => skillOverlap_congr r1 r2 cs (hs1.trans hs2.symm))
    rw [hcong] at hp1
    rw [hp1] at hp2
    exact absurd hp2 (by decide)

/-- Counterexample to claim C8: with candidate skills ["Python3"] and
required skills ["Python"], the candidate skill "Python3" produces a match
with "Python" under the substring rule (so "Python" lands in
matched_skills), yet "Python3" still appears in additional_skills, because
the code filters candidate skills by literal membership in the list of
matched required skills. -/
theorem additional_skills_cex :
    skillOverlap "Python" "Python3" = true ∧
    (analyze_match_details no_domain_candidate no_domain_job).skills_analysis.matched_skills =
      ["Python"] ∧
    "Python3" ∈
      (analyze_match_details no_domain_candidate no_domain_job).skills_analysis.additional_skills := by
  refine ⟨by decide, by decide, by decide⟩

/-- Claim C8 (amended): `additional_skills` contains exactly the candidate
skills that are not literally (string-)equal to any entry of
`matched_skills` (the matched required skills); a candidate skill that
produced a substring match may still appear in `additional_skills` when it
is not string-equal to the required skill it matched. -/
theorem additional_skills_spec (c : Candidate) (j : JobRequirement) :
    (analyze_match_details c j).skills_analysis.additional_skills =
      (c.skills.getD []).filter
        (fun s => !((analyze_match_details c j).skills_analysis.matched_skills.contains s)) ∧
    ∀ s, s ∈ (analyze_match_details c j).skills_analysis.additional_skills ↔
      (s ∈ c.skills.getD [] ∧
        s ∉ (analyze_match_details c j).skills_analysis.matched_skills) := by
  refine ⟨rfl, fun s => ?_⟩
  constructor
  · intro hmem
    have h := List.mem_filter.mp hmem
    refine ⟨h.1, ?_⟩
    have := h.2
    simpa using this
  · intro ⟨h1, h2⟩
    refine List.mem_filter.mpr ⟨h1, ?_⟩
    simpa using h2

/-- Claim C10: when the candidate has no domain field, the keyword list
used for the text score inside `calculate_match_score` is the skills with
an empty string appended; `calculate_text_similarity` never counts the
empty keyword but includes it in the divisor, so for a non-empty job
description the text field score is at most n/(n+1) (n = number of skills)
and strictly below 1. -/
theorem text_component_missing_domain_spec (c : Candidate) (j : JobRequirement)
    (hd : c.domain = none) (hjd : j.job_description.getD "" ≠ "") :
    text_component c j =
      calculate_text_similarity ((c.skills.getD []) ++ [""]) (j.job_description.getD "") ∧
    text_component c j ≤
      ((c.skills.getD []).length : ℚ) / (((c.skills.getD []).length : ℚ) + 1) ∧
    text_component c j < 1 := by
  have h0 : text_component c j =
      calculate_text_similarity ((c.skills.getD []) ++ [""]) (j.job_description.getD "") := by
    unfold text_component
    rw [hd]
    rfl
  have hval : calculate_text_similarity ((c.skills.getD []) ++ [""]) (j.job_description.getD "") =
      ((((c.skills.getD []) ++ [""]).countP
        (fun k => !(k == "") && substrB (lowerStr k) (lowerStr (j.job_description.getD "")))) : ℚ) /
        (((c.skills.getD []).length : ℚ) + 1) := by
    unfold calculate_text_similarity
    rw [if_neg (by simp [hjd]), if_neg (by simp)]
    congr 1
    push_cast [List.length_append, List.length_singleton]
    ring
  have hcount : (((c.skills.getD []) ++ [""]).countP
      (fun k => !(k == "") && substrB (lowerStr k) (lowerStr (j.job_description.getD "")))) ≤
      (c.skills.getD []).length := by
    rw [List.countP_append]
    have h1 : List.countP
        (fun k => !(k == "") && substrB (lowerStr k) (lowerStr (j.job_description.getD ""))) [""] = 0 := by
      simp [List.countP_cons, List.countP_nil]
    rw [h1, Nat.add_zero]
    exact List.countP_le_length _
  have hle : text_component c j =
      ((((c.skills.getD []) ++ [""]).countP
        (fun k => !(k == "") && substrB (lowerStr k) (lowerStr (j.job_description.getD "")))) : ℚ) /
        (((c.skills.getD []).length : ℚ) + 1) := h0.trans hval
  refine ⟨h0, ?_, ?_⟩
  · rw [hle]
    gcongr

  · rw [hle, div_lt_one (by positivity)]
    have : ((((c.skills.getD []) ++ [""]).countP
        (fun k => !(k == "") && substrB (lowerStr k) (lowerStr (j.job_description.getD "")))) : ℚ) ≤
        ((c.skills.getD []).length : ℚ) := by exact_mod_cast hcount
    linarith

/-- Witness for claim C10 at a concrete input. -/
theorem text_component_missing_domain_spec_witness :
    text_component ⟨none, some ["Python"], none⟩ ⟨none, none, none, some "Python developer"⟩ < 1 :=
  (text_component_missing_domain_spec ⟨none, some ["Python"], none⟩
    ⟨none, none, none, some "Python developer"⟩ rfl (by decide)).2.2

/-- The comparison used by `rank_candidates` is transitive. -/
theorem rankLE_trans (a b c : ScoredCandidate)
    (h1 : decide (entry_score b ≤ entry_score a) = true)
    (h2 : decide (entry_score c ≤ entry_score b) = true) :
    decide (entry_score c ≤ entry_score a) = true := by
  simp only [decide_eq_true_iff] at *
  exact le_trans h2 h1

/-- The comparison used by `rank_candidates` is total. -/
theorem rankLE_total (a b : ScoredCandidate) :
    (decide (entry_score b ≤ entry_score a) || decide (entry_score a ≤ entry_score b)) = true := by
  simp only [Bool.or_eq_true, decide_eq_true_iff]
  exact le_total (entry_score b) (entry_score a)

/-- Claim C6: `rank_candidates` returns a permutation of its input, sorted
in descending order of the `match_score` key (a missing key counting as 0),
and the sort is stable: two entries with equal scores that occur as a
sublist of the input occur in the same order in the output. -/
theorem rank_candidates_spec (l : List ScoredCandidate) :
    List.Perm (rank_candidates l) l ∧
    (rank_candidates l).Pairwise (fun a b => entry_score b ≤ entry_score a) ∧
    (∀ x : ScoredCandidate, x.match_score = none → entry_score x = 0) ∧
    (∀ a b : ScoredCandidate, entry_score a = entry_score b →
      List.Sublist [a, b] l → List.Sublist [a, b] (rank_candidates l)) := by
  refine ⟨?_, ?_, ?_, ?_⟩
  · exact List.mergeSort_perm l _
  · have h := List.sorted_mergeSort rankLE_trans rankLE_total l
    exact h.imp (fun hab => by simpa using hab)
  · intro x hx
    unfold entry_score
    rw [hx]
    rfl
  · intro a b hab hsub
    unfold rank_candidates
    refine List.pair_sublist_mergeSort rankLE_trans rankLE_total ?_ hsub
    simp [hab]

/-- Witness for claim C6 at a concrete input: two equal-score entries stay
in input order. -/
theorem rank_candidates_spec_witness :
    List.Sublist [(⟨some 1, 0⟩ : ScoredCandidate), ⟨some 1, 1⟩]
      (rank_candidates [⟨some 1, 0⟩, ⟨some 1, 1⟩]) :=
  (rank_candidates_spec [⟨some 1, 0⟩, ⟨some 1, 1⟩]).2.2.2 ⟨some 1, 0⟩ ⟨some 1, 1⟩ rfl
    (List.Sublist.refl _)

/-- The accumulator is below a `foldl max`. -/
theorem le_foldl_max : ∀ (l : List Nat) (a : Nat), a ≤ l.foldl max a
  | [], _ => Nat.le_refl _
  | x :: xs, a => le_trans (Nat.le_max_left a x) (le_foldl_max xs (max a x))

/-- Every member is below a `foldl max`. -/
theorem mem_le_foldl_max : ∀ (l : List Nat) (a x : Nat), x ∈ l → x ≤ l.foldl max a
  | [], _, _, hx => absurd hx (List.not_mem_nil _)
  | y :: ys, a, x, hx => by
    rw [List.foldl_cons]
    rcases List.mem_cons.mp hx with rfl | h
    · exact le_trans (Nat.le_max_right a x) (le_foldl_max ys (max a x))
    · exact mem_le_foldl_max ys (max a y) x h

/-- A `foldl max` is the accumulator or an element of the list. -/
theorem foldl_max_eq_or_mem : ∀ (l : List Nat) (a : Nat),
    l.foldl max a = a ∨ l.foldl max a ∈ l
  | [], _ => Or.inl rfl
  | y :: ys, a => by
    rw [List.foldl_cons]
    rcases foldl_max_eq_or_mem ys (max a y) with h | h
    · rcases max_choice a y with hm | hm
      · left
        rw [h, hm]
      · right
        rw [h, hm]
        exact List.mem_cons_self y ys
    · right
      exact List.mem_cons_of_mem y h

/-- Claim C9: `classify_domain` returns "General" exactly when the skill
list is empty or every domain's (keyword, skill)-pair count is 0; otherwise
it returns a domain whose pair count equals the maximum over all domains. -/
theorem classify_domain_spec (skills : List String) :
    (classify_domain skills = "General" ↔
      (skills = [] ∨ ∀ p ∈ domain_keywords,
        domain_score_of p.2 (skills.map lowerStr) = 0)) ∧
    (classify_domain skills ≠ "General" →
      ∃ p ∈ domain_keywords, classify_domain skills = p.1 ∧
        ∀ q ∈ domain_keywords,
          domain_score_of q.2 (skills.map lowerStr) ≤
            domain_score_of p.2 (skills.map lowerStr)) := by
  by_cases hs : skills = []
  · subst hs
    refine ⟨?_, ?_⟩
    · simp [classify_domain]
    · intro h
      exact absurd rfl h
  · have hne : skills.isEmpty = false := by simpa [List.isEmpty_iff] using hs
    set sl := skills.map lowerStr with hsl
    set ds := domain_keywords.map (fun p => (p.1, domain_score_of p.2 sl)) with hds
    set m := (ds.map Prod.snd).foldl max 0 with hm
    have hclassify : classify_domain skills =
        (if m = 0 then "General"
         else match ds.find? (fun p => p.2 = m) with
           | some p => p.1
           | none => "General") := by
      unfold classify_domain
      rw [hne, if_neg (by simp)]
    have hscore_mem : ∀ r ∈ domain_keywords, domain_score_of r.2 sl ∈ ds.map Prod.snd := by
      intro r hr
      rw [hds]
      exact List.mem_map.mpr ⟨(r.1, domain_score_of r.2 sl),
        List.mem_map.mpr ⟨r, hr, rfl⟩, rfl⟩
    by_cases hm0 : m = 0
    · have hcg : classify_domain skills = "General" := by
        rw [hclassify, if_pos hm0]
      refine ⟨?_, ?_⟩
      · rw [hcg]
        refine ⟨fun _ => Or.inr (fun p hp => ?_), fun _ => rfl⟩
        have h1 := mem_le_foldl_max (ds.map Prod.snd) 0 _ (hscore_mem p hp)
        rw [← hm, hm0] at h1
        omega
      · intro hnc
        exact absurd hcg hnc
    · have hmmem : m ∈ ds.map Prod.snd := by
        rcases foldl_max_eq_or_mem (ds.map Prod.snd) 0 with h | h
        · rw [← hm] at h
          exact absurd h hm0
        · rwa [← hm] at h
      have hfind : ∃ p0, ds.find? (fun p => p.2 = m) = some p0 := by
        have hsome : (ds.find? (fun p => p.2 = m)).isSome := by
          rw [List.find?_isSome]
          rcases List.mem_map.mp hmmem with ⟨pair, hpair, hsnd⟩
          exact ⟨pair, hpair, by simp [hsnd]⟩
        exact Option.isSome_iff_exists.mp hsome
      rcases hfind with ⟨p0, hp0⟩
      have hp0mem : p0 ∈ ds := List.mem_of_find?_eq_some hp0
      have hp0snd : p0.2 = m := by
        have := List.find?_some hp0
        simpa using this
      rw [hds] at hp0mem
      rcases List.mem_map.mp hp0mem with ⟨q, hq, hqp⟩
      have hclass_eq : classify_domain skills = p0.1 := by
        rw [hclassify, if_neg hm0, hp0]
      have hq1 : p0.1 = q.1 := by
        rw [← hqp]
      have hqscore : domain_score_of q.2 sl = m := by
        rw [← hp0snd, ← hqp]
      have hnotgen : q.1 ≠ "General" := by
        have hall : ∀ r ∈ domain_keywords, r.1 ≠ "General" := by decide
        exact hall q hq
      have hmax : ∀ r ∈ domain_keywords,
          domain_score_of r.2 sl ≤ domain_score_of q.2 sl := by
        intro r hr
        rw [hqscore]
        exact mem_le_foldl_max (ds.map Prod.snd) 0 _ (hscore_mem r hr)
      refine ⟨⟨fun hg => ?_, fun hrhs => ?_⟩, fun _ => ⟨q, hq, by rw [hclass_eq, hq1], hmax⟩⟩
      · rw [hclass_eq, hq1] at hg
        exact absurd hg hnotgen
      · rcases hrhs with h | h
        · exact absurd h hs
        · exact absurd (hqscore.symm.trans (h q hq)) hm0

/-- Witness for claim C9 at a concrete input. -/
theorem classify_domain_spec_witness :
    ∃ p ∈ domain_keywords, classify_domain ["python"] = p.1 ∧
      ∀ q ∈ domain_keywords,
        domain_score_of q.2 (["python"].map lowerStr) ≤
          domain_score_of p.2 (["python"].map lowerStr) :=
  (classify_domain_spec ["python"]).2 (by decide)

end ResumeAnalyzer
